import Mathlib

/-
Shallow embedding of the Velodyne packet-capture and point-reconstruction core
from src/3rdparty/VelodyneCapture/VelodyneCapture_cloud.h (namespace velodyne).

The stateful `capturePCAP` loop is embedded as explicit state passing over
`CaptureState`: one step per laser slot (`processSlot` / `processReturn`),
folded over the 32 slots of a firing block (`processFiring`) and the 12 blocks
of a packet (`processPacket`).  The reconstruction control flow never inspects
the geometric point values, so the step functions are parameterized by the
point constructor `mk : dist -> channel -> azimuth -> P`; the actual
floating-point geometry of the source (lines 373-385) is embedded separately
over the reals (`rawPoint`, `applyTransform`).  Machine floating arithmetic on
the small exact values involved in control flow (azimuths in hundredths of a
degree, halves after interpolation, the 0.001 epsilon) is exact, so those
values are embedded as rationals.
-/

namespace velodyne

/-- Line 37: `#define EPSILON 0.001`, as an exact rational. -/
def EPSILON : ℚ := 1 / 1000

/-- Line 82: `static const int LASER_PER_FIRING = 32`. -/
def LASER_PER_FIRING : ℕ := 32

/-- Line 83: `static const int FIRING_PER_PKT = 12`. -/
def FIRING_PER_PKT : ℕ := 12

/-- Lines 86-90: one laser return, `uint16_t distance` and `uint8_t intensity`. -/
structure LaserReturn where
  distance : ℕ
  intensity : ℕ
deriving DecidableEq

/-- Lines 93-98: one firing block: block identifier, rotational position
(hundredths of a degree, `uint16_t`), and 32 laser returns. -/
structure FiringData where
  blockIdentifier : ℕ
  rotationalPosition : ℕ
  laserReturns : List LaserReturn
deriving DecidableEq

/-- Lines 100-106: the 1206-byte packet payload: 12 firing blocks, GPS
timestamp, mode byte and sensor-type byte. -/
structure DataPacket where
  firingData : List FiringData
  gpsTimestamp : ℕ
  mode : ℕ
  sensorType : ℕ
deriving DecidableEq

/-- Default laser return used for out-of-range list access (the C struct
always has exactly 32 entries). -/
def defaultReturn : LaserReturn := { distance := 0, intensity := 0 }

/-- Default firing block used for out-of-range list access (the C struct
always has exactly 12 entries). -/
def defaultFiring : FiringData :=
  { blockIdentifier := 0, rotationalPosition := 0, laserReturns := [] }

/-- A completed cloud as pushed at lines 344-348: `header.stamp`, `width`
(point count), `height` (always 1) and the accumulated points. -/
structure Frame (P : Type) where
  stamp : ℕ
  width : ℕ
  height : ℕ
  points : List P
deriving DecidableEq

/-- The mutable reconstruction state of `capturePCAP`: `last_azimuth`
(line 271), the in-progress cloud (line 273/284), and the queue of completed
frames (line 74). -/
structure CaptureState (P : Type) where
  lastAzimuth : ℚ
  cloud : List P
  queue : List (Frame P)
deriving DecidableEq

/-- State at the top of `capturePCAP`: `last_azimuth = 0.0`, a fresh empty
cloud, an empty queue. -/
def initState {P : Type} : CaptureState P :=
  { lastAzimuth := 0, cloud := [], queue := [] }

/-- Total number of points accumulated so far, across the in-progress cloud
and every queued frame. -/
def totalPoints {P : Type} (s : CaptureState P) : ℕ :=
  s.cloud.length + (s.queue.map (fun f => f.points.length)).sum

/-- Lines 310-317: the interpolated azimuth advance, computed once per packet
from the rotational positions of firing blocks 0 and 1. -/
def interpolatedAzimuth (r0 r1 : ℕ) : ℚ :=
  if r1 < r0 then (((r1 : ℚ) + 36000) - (r0 : ℚ)) / 2
  else ((r1 : ℚ) - (r0 : ℚ)) / 2

/-- Lines 324-339: the azimuth of laser slot `li` of a block: the block's
rotational position, plus the interpolated advance when `li` is at or beyond
the model's laser count, wrapped back below 36000. -/
def slotAzimuth (maxNumLasers : ℕ) (rotPos : ℕ) (interp : ℚ) (li : ℕ) : ℚ :=
  let azimuth : ℚ := (rotPos : ℚ)
  let azimuth := if li ≥ maxNumLasers then azimuth + interp else azimuth
  if azimuth ≥ 36000 then azimuth - 36000 else azimuth

/-- Lines 343-350: finalize the in-progress frame (stamp it with the packet's
unixtime, width = accumulated point count, height = 1), push it to the queue,
and start a new empty cloud.  `last_azimuth` is not touched here. -/
def pushFrame {P : Type} (u : ℕ) (s : CaptureState P) : CaptureState P :=
  { lastAzimuth := s.lastAzimuth
    cloud := []
    queue := s.queue ++
      [{ stamp := u, width := s.cloud.length, height := 1, points := s.cloud }] }

/-- Lines 341-389 for one laser slot, with azimuth / channel / distance
already extracted: first the rotation-complete test (`last_azimuth > azimuth`
pushes the in-progress frame), then the epsilon distance filter, then the
point append and the `last_azimuth` update.  `mk` abstracts the geometric
point construction of lines 373-385. -/
def processReturn {P : Type} (mk : ℕ → ℕ → ℚ → P) (u : ℕ) (azimuth : ℚ)
    (dist ch : ℕ) (s : CaptureState P) : CaptureState P :=
  let s1 := if s.lastAzimuth > azimuth then pushFrame u s else s
  if (dist : ℚ) < EPSILON then s1
  else { lastAzimuth := azimuth
         cloud := s1.cloud ++ [mk dist ch azimuth]
         queue := s1.queue }

/-- Lines 323-390: one laser slot of one firing block: compute the slot's
azimuth and channel (`laser_index % MAX_NUM_LASERS`), read the return's raw
distance, and process it. -/
def processSlot {P : Type} (mk : ℕ → ℕ → ℚ → P) (maxNumLasers u : ℕ)
    (interp : ℚ) (firing : FiringData) (li : ℕ) (s : CaptureState P) :
    CaptureState P :=
  let azimuth := slotAzimuth maxNumLasers firing.rotationalPosition interp li
  let lim := li % maxNumLasers
  processReturn mk u azimuth (firing.laserReturns.getD lim defaultReturn).distance lim s

/-- Lines 320-391: one firing block: all 32 laser slots in order. -/
def processFiring {P : Type} (mk : ℕ → ℕ → ℚ → P) (maxNumLasers u : ℕ)
    (interp : ℚ) (firing : FiringData) (s : CaptureState P) : CaptureState P :=
  (List.range LASER_PER_FIRING).foldl
    (fun st li => processSlot mk maxNumLasers u interp firing li st) s

/-- 32-bit unsigned subtraction, for `header->len - 42` at line 296
(`header->len` is a 32-bit unsigned field). -/
def sub32 (a b : ℕ) : ℕ := (a + (2 ^ 32 - b)) % 2 ^ 32

/-- Big-endian decimal digit list of `n` (the decimal rendering produced by
`operator<<` on the stringstream at line 302), via fuel recursion. -/
def toDigitsAux : ℕ → ℕ → List ℕ → List ℕ
  | 0, _, acc => acc
  | fuel + 1, n, acc =>
      if n = 0 then acc else toDigitsAux fuel (n / 10) (n % 10 :: acc)

/-- Big-endian decimal digits of `n`, with `0` rendered as the single
digit `0`. -/
def digitsOf (n : ℕ) : List ℕ :=
  if n = 0 then [0] else toDigitsAux n n []

/-- Line 302: `std::setw(6) << std::left << std::setfill('0')`: the digit
field is left-justified and padded on the right with `'0'` up to width 6
(no padding when already 6 or more digits wide). -/
def padField (l : List ℕ) : List ℕ := l ++ List.replicate (6 - l.length) 0

/-- Numeric value of a big-endian decimal digit list, modelling `std::stoll`
at line 303 applied to the digit string. -/
def fromDigits (l : List ℕ) : ℕ := l.foldl (fun a d => a * 10 + d) 0

/-- Lines 300-303: the unixtime stamp: decimal seconds concatenated with the
microseconds rendered left-justified in a 6-wide zero-filled field, read back
as one integer. -/
def unixtimeOf (sec usec : ℕ) : ℕ :=
  fromDigits (digitsOf sec ++ padField (digitsOf usec))

/-- Outcome of handling one raw packet buffer in the `while(run)` loop:
`skipped` is the `continue` at line 297 (loop moves to the next packet),
`assertFailed` is a failure of the line 308 assertion (the process aborts),
`processed` means all 12 firing blocks were decoded. -/
inductive PacketOutcome
  | skipped
  | assertFailed
  | processed
deriving DecidableEq

/-- Lines 294-391: handling of one raw packet buffer: the size check
(line 296), the sensor-type assertion (line 308), the once-per-packet
interpolated azimuth (lines 310-317), then the 12 firing blocks in order. -/
def processPacket {P : Type} (mk : ℕ → ℕ → ℚ → P) (maxNumLasers len sec usec : ℕ)
    (packet : DataPacket) (s : CaptureState P) : CaptureState P × PacketOutcome :=
  if sub32 len 42 ≠ 1206 then (s, PacketOutcome.skipped)
  else if ¬ (packet.sensorType = 0x21 ∨ packet.sensorType = 0x22) then
    (s, PacketOutcome.assertFailed)
  else
    let u := unixtimeOf sec usec
    let interp := interpolatedAzimuth
      (packet.firingData.getD 0 defaultFiring).rotationalPosition
      (packet.firingData.getD 1 defaultFiring).rotationalPosition
    ((List.range FIRING_PER_PKT).foldl
      (fun st fi => processFiring mk maxNumLasers u interp
        (packet.firingData.getD fi defaultFiring) st) s,
     PacketOutcome.processed)

/-- Lines 224-235: the non-blocking `retrieve`: the `try_lock` outcome is the
boolean input; on success and a non-empty queue the front (oldest) frame is
moved out and popped, otherwise the output argument is left untouched. -/
def retrieve {P : Type} (lockAcquired : Bool) (q : List (Frame P))
    (cloud : Frame P) : Frame P × List (Frame P) :=
  if lockAcquired then
    match q with
    | [] => (cloud, q)
    | f :: rest => (f, rest)
  else (cloud, q)

/-- Point constructor that records the slot's azimuth, used to drive the
reconstruction loop on synthetic azimuth sequences. -/
def idPoint : ℕ → ℕ → ℚ → ℚ := fun _ _ a => a

/-- Drive `processReturn` over a synthetic sequence of slot azimuths, each
with raw distance 1 and channel 0, packet unixtime 7, from the initial
state. -/
def syntheticRun (azs : List ℚ) : CaptureState ℚ :=
  azs.foldl (fun s az => processReturn idPoint 7 az 1 0 s) initState

/-- Line 403: `VLP16Capture`: `MAX_NUM_LASERS = 16`. -/
def vlp16_MAX_NUM_LASERS : ℕ := 16

/-- Line 404: the VLP-16 vertical angle table (degrees). -/
def vlp16_lut : List ℚ :=
  [-15, 1, -13, 3, -11, 5, -9, 7, -7, 9, -5, 11, -3, 13, -1, 15]

/-- Lines 428, 431-432: `VLP16Capture::initialize` fills `lut_cos` with
`std::cos(a * M_PI / 180.0)` of every angle and copies it into the base-class
member used by `capturePCAP`. -/
noncomputable def vlp16_lut_cos : List ℝ :=
  vlp16_lut.map (fun a : ℚ => Real.cos ((a : ℝ) * Real.pi / 180))

/-- Lines 429, 433: same for `lut_sin` with `std::sin`. -/
noncomputable def vlp16_lut_sin : List ℝ :=
  vlp16_lut.map (fun a : ℚ => Real.sin ((a : ℝ) * Real.pi / 180))

/-- Line 441: `HDL32ECapture`: `MAX_NUM_LASERS = 32`. -/
def hdl32_MAX_NUM_LASERS : ℕ := 32

/-- Line 442: the HDL-32E vertical angle table (degrees), with the exact
float-rounded literals of the source. -/
def hdl32_lut : List ℚ :=
  [-30.67, -9.3299999, -29.33, -8.0, -28, -6.6700001, -26.67, -5.3299999,
   -25.33, -4.0, -24.0, -2.6700001, -22.67, -1.33, -21.33, 0.0,
   -20.0, 1.33, -18.67, 2.6700001, -17.33, 4.0, -16, 5.3299999,
   -14.67, 6.6700001, -13.33, 8.0, -12.0, 9.3299999, -10.67, 10.67]

/-- Lines 462-466: the base-class `lut_cos` after `HDL32ECapture::initialize`:
the initializer assigns only `MAX_NUM_LASERS` and `lut`, so the
default-constructed empty vector (line 79) is left unchanged. -/
def hdl32_lut_cos : List ℝ := []

/-- Lines 462-466: likewise the base-class `lut_sin` (line 80) stays empty. -/
def hdl32_lut_sin : List ℝ := []

/-- Line 274: `M_PI / 18000.0`. -/
noncomputable def M_PI_18000 : ℝ := Real.pi / 18000

/-- Lines 373-376: the reconstructed point before any transform:
`x = dist*2*lut_cos[ch] * sin(az*pi/18000)`,
`y = dist*2*lut_cos[ch] * cos(az*pi/18000)`, `z = dist*2*lut_sin[ch]`. -/
noncomputable def rawPoint (lutCos lutSin : List ℝ) (dist ch : ℕ) (az : ℚ) :
    ℝ × ℝ × ℝ :=
  (((dist : ℝ) * 2 * lutCos.getD ch 0) * Real.sin ((az : ℝ) * M_PI_18000),
   ((dist : ℝ) * 2 * lutCos.getD ch 0) * Real.cos ((az : ℝ) * M_PI_18000),
   (dist : ℝ) * 2 * lutSin.getD ch 0)

/-- Lines 378-383: application of the configured 4x4 matrix: rows 0..2 of
`M` dotted with `(x, y, z)` plus the fourth (translation) column. -/
noncomputable def applyTransform (m : Fin 4 → Fin 4 → ℝ) (p : ℝ × ℝ × ℝ) :
    ℝ × ℝ × ℝ :=
  (m 0 0 * p.1 + m 0 1 * p.2.1 + m 0 2 * p.2.2 + m 0 3,
   m 1 0 * p.1 + m 1 1 * p.2.1 + m 1 2 * p.2.2 + m 1 3,
   m 2 0 * p.1 + m 2 1 * p.2.1 + m 2 2 * p.2.2 + m 2 3)

/-- Modelled from the spec: the homogeneous extension `[x, y, z, 1]` of a
point, for the spec's formulation `p' = M*[x,y,z,1]`. -/
def homog (p : ℝ × ℝ × ℝ) : Fin 4 → ℝ :=
  fun j => if j = 0 then p.1 else if j = 1 then p.2.1 else if j = 2 then p.2.2 else 1

/-- Modelled from the spec: `x = range*verticalCos*sin(azimuthRad)`,
`y = range*verticalCos*cos(azimuthRad)`, `z = range*verticalSin`. -/
noncomputable def specPoint (range verticalCos verticalSin azimuthRad : ℝ) :
    ℝ × ℝ × ℝ :=
  (range * verticalCos * Real.sin azimuthRad,
   range * verticalCos * Real.cos azimuthRad,
   range * verticalSin)

/-- Modelled from the spec: `p' = M*[x,y,z,1]`, rows 0..2 of the genuine
matrix-vector product against the homogeneous point. -/
noncomputable def specTransform (m : Fin 4 → Fin 4 → ℝ) (p : ℝ × ℝ × ℝ) :
    ℝ × ℝ × ℝ :=
  (Finset.univ.sum (fun j : Fin 4 => m 0 j * homog p j),
   Finset.univ.sum (fun j : Fin 4 => m 1 j * homog p j),
   Finset.univ.sum (fun j : Fin 4 => m 2 j * homog p j))

/-- A packet with an unrecognized sensor-type byte (neither 0x21 nor 0x22). -/
def badPacket : DataPacket :=
  { firingData := [], gpsTimestamp := 0, mode := 0, sensorType := 0x23 }

/-- Modelled from the spec: seconds concatenated with a zero-padded 6-digit
microsecond field, i.e. `sec * 10^6 + usec` for microsecond values below one
million (the spec's example: seconds 10, microseconds 42 give 10000042). -/
def specUnixtime (sec usec : ℕ) : ℕ := sec * 1000000 + usec

/-- Helper: the epsilon test on an integer raw distance holds exactly at 0. -/
theorem epsilon_lt_iff_zero (d : ℕ) : ((d : ℚ) < EPSILON) ↔ d = 0 := by
  constructor
  · intro h
    by_contra hd
    have h1 : (1 : ℚ) ≤ (d : ℚ) := by
      exact_mod_cast Nat.one_le_iff_ne_zero.mpr hd
    have h2 : EPSILON < 1 := by norm_num [EPSILON]
    linarith
  · rintro rfl
    norm_num [EPSILON]

/-- Helper: finalizing and requeueing the in-progress frame moves points but
neither adds nor drops any. -/
theorem totalPoints_pushFrame {P : Type} (u : ℕ) (s : CaptureState P) :
    totalPoints (pushFrame u s) = totalPoints s := by
  simp [totalPoints, pushFrame]
  omega

/-- C10: the non-blocking retrieve leaves the output argument unchanged both
when the lock cannot be acquired and when the queue is empty; when it
delivers, it pops and returns the front (oldest, since `pushFrame` appends at
the back) queued frame. -/
theorem C10_retrieve_effect :
    (∀ (P : Type) (q : List (Frame P)) (c : Frame P), retrieve false q c = (c, q))
    ∧ (∀ (P : Type) (c : Frame P), retrieve true ([] : List (Frame P)) c = (c, []))
    ∧ (∀ (P : Type) (f : Frame P) (rest : List (Frame P)) (c : Frame P),
        retrieve true (f :: rest) c = (f, rest)) :=
  ⟨fun _ _ _ => rfl, fun _ _ => rfl, fun _ _ _ _ => rfl⟩

/-- C9: a buffer whose 32-bit length minus 42 differs from 1206 is discarded
whole: the reconstruction state is returned unchanged and the outcome is
`skipped` (the production loop continues with the next packet; a size
mismatch is never fatal). -/
theorem C9_size_mismatch_skipped :
    ∀ (P : Type) (mk : ℕ → ℕ → ℚ → P) (maxNumLasers len sec usec : ℕ)
      (packet : DataPacket) (s : CaptureState P),
      sub32 len 42 ≠ 1206 →
        processPacket mk maxNumLasers len sec usec packet s
          = (s, PacketOutcome.skipped) := by
  intro P mk maxN len sec usec packet s h
  simp [processPacket, h]

/-- Witness for C9 at the concrete undersized length 100. -/
theorem C9_size_mismatch_skipped_witness :
    processPacket idPoint 16 100 0 0 badPacket (@initState ℚ)
      = (@initState ℚ, PacketOutcome.skipped) :=
  C9_size_mismatch_skipped ℚ idPoint 16 100 0 0 badPacket initState (by decide)

/-- C6 counterexample: a correctly sized packet whose sensor-type byte is
0x23 is not rejected-and-skipped: the line 308 assertion fails, which aborts
the process in assert-enabled builds instead of continuing with the next
packet. -/
theorem C6_unrecognized_model_counterexample :
    processPacket idPoint 16 1248 0 0 badPacket (@initState ℚ)
        = (@initState ℚ, PacketOutcome.assertFailed)
    ∧ PacketOutcome.assertFailed ≠ PacketOutcome.skipped :=
  ⟨by decide, by decide⟩

/-- C6 amended: a correctly sized packet whose sensor-type byte is neither
0x21 nor 0x22 makes the line 308 assertion fail: the process aborts at that
point (in assert-enabled builds) with reconstruction state unchanged — the
packet is not skipped-and-continued. -/
theorem C6_unrecognized_model_amended :
    ∀ (P : Type) (mk : ℕ → ℕ → ℚ → P) (maxNumLasers len sec usec : ℕ)
      (packet : DataPacket) (s : CaptureState P),
      sub32 len 42 = 1206 → packet.sensorType ≠ 0x21 → packet.sensorType ≠ 0x22 →
        processPacket mk maxNumLasers len sec usec packet s
          = (s, PacketOutcome.assertFailed) := by
  intro P mk maxN len sec usec packet s h h1 h2
  simp [processPacket, h, h1, h2]

/-- Witness for the amended C6 at the concrete bad packet. -/
theorem C6_unrecognized_model_amended_witness :
    processPacket idPoint 16 1248 0 0 badPacket (@initState ℚ)
      = (@initState ℚ, PacketOutcome.assertFailed) :=
  C6_unrecognized_model_amended ℚ idPoint 16 1248 0 0 badPacket initState
    (by decide) (by decide) (by decide)

/-- C7: a laser return contributes a point iff its raw integer distance is
nonzero: the epsilon filter `distance < 0.001` holds exactly at distance 0,
and one slot adds exactly 0 (distance 0) or 1 (any nonzero distance, in
particular 1) to the total point count across the in-progress cloud and all
queued frames. -/
theorem C7_epsilon_filter :
    (∀ d : ℕ, ((d : ℚ) < EPSILON) ↔ d = 0)
    ∧ (∀ (P : Type) (mk : ℕ → ℕ → ℚ → P) (u : ℕ) (az : ℚ) (d ch : ℕ)
        (s : CaptureState P),
        totalPoints (processReturn mk u az d ch s)
          = totalPoints s + (if d = 0 then 0 else 1)) := by
  refine ⟨epsilon_lt_iff_zero, ?_⟩
  intro P mk u az d ch s
  by_cases hd : d = 0
  · subst hd
    have hf : (0 : ℚ) < EPSILON := by norm_num [EPSILON]
    by_cases hb : s.lastAzimuth > az
    · simp [processReturn, hb, hf, totalPoints_pushFrame]
    · simp [processReturn, hb, hf]
  · have hf : ¬ ((d : ℚ) < EPSILON) := fun hlt => hd ((epsilon_lt_iff_zero d).mp hlt)
    by_cases hb : s.lastAzimuth > az
    · simp [processReturn, hb, hf, totalPoints, pushFrame, hd]
      omega
    · simp [processReturn, hb, hf, totalPoints, hd]
      omega

/-- C1: when `last_azimuth` exceeds the slot's azimuth the in-progress frame
is finalized (stamp = packet unixtime, width = accumulated point count) and
pushed before the slot's return is handled, so that return starts the new
frame; on the synthetic azimuth sequence 100, 200, 350, 50, 120 exactly one
boundary occurs, immediately before the slot with azimuth 50. -/
theorem C1_rotation_boundary :
    (∀ (P : Type) (mk : ℕ → ℕ → ℚ → P) (u : ℕ) (az : ℚ) (d ch : ℕ)
        (s : CaptureState P),
        s.lastAzimuth > az →
          processReturn mk u az d ch s =
            { lastAzimuth := if (d : ℚ) < EPSILON then s.lastAzimuth else az
              cloud := if (d : ℚ) < EPSILON then [] else [mk d ch az]
              queue := s.queue ++
                [{ stamp := u, width := s.cloud.length, height := 1,
                   points := s.cloud }] })
    ∧ syntheticRun [100, 200, 350] =
        { lastAzimuth := 350, cloud := [100, 200, 350], queue := [] }
    ∧ syntheticRun [100, 200, 350, 50, 120] =
        { lastAzimuth := 120, cloud := [50, 120],
          queue := [{ stamp := 7, width := 3, height := 1,
                      points := [100, 200, 350] }] } := by
  refine ⟨?_,
    by norm_num [syntheticRun, processReturn, pushFrame, idPoint, initState, EPSILON],
    by norm_num [syntheticRun, processReturn, pushFrame, idPoint, initState, EPSILON]⟩
  intro P mk u az d ch s h
  by_cases hd : (d : ℚ) < EPSILON
  · simp [processReturn, h, hd, pushFrame]
  · simp [processReturn, h, hd, pushFrame]

/-- Witness for C1 at a concrete boundary state. -/
theorem C1_rotation_boundary_witness :
    processReturn idPoint 3 1 2 0
        { lastAzimuth := 5, cloud := [9], queue := [] } =
      { lastAzimuth := if ((2 : ℕ) : ℚ) < EPSILON then 5 else 1
        cloud := if ((2 : ℕ) : ℚ) < EPSILON then [] else [idPoint 2 0 1]
        queue := [{ stamp := 3, width := 1, height := 1, points := [9] }] } :=
  C1_rotation_boundary.1 ℚ idPoint 3 1 2 0 _ (by norm_num)

/-- C8: `last_azimuth` tracks the azimuth of the last appended point: a
filtered slot (distance 0) leaves it unchanged, an appended slot sets it to
that slot's azimuth, it starts at 0, and with `last_azimuth = 0` and a
nonnegative azimuth no frame is pushed — and slot azimuths are nonnegative
whenever the interpolated advance is (which holds for in-range rotational
positions). -/
theorem C8_lastAzimuth_invariant :
    (∀ (P : Type) (mk : ℕ → ℕ → ℚ → P) (u : ℕ) (az : ℚ) (ch : ℕ)
        (s : CaptureState P),
        (processReturn mk u az 0 ch s).lastAzimuth = s.lastAzimuth)
    ∧ (∀ (P : Type) (mk : ℕ → ℕ → ℚ → P) (u : ℕ) (az : ℚ) (d ch : ℕ)
        (s : CaptureState P), d ≠ 0 →
        (processReturn mk u az d ch s).lastAzimuth = az)
    ∧ (∀ (P : Type) (mk : ℕ → ℕ → ℚ → P) (u : ℕ) (az : ℚ) (d ch : ℕ)
        (s : CaptureState P),
        s.lastAzimuth = 0 → 0 ≤ az →
          (processReturn mk u az d ch s).queue = s.queue)
    ∧ (@initState ℚ).lastAzimuth = 0
    ∧ (∀ r0 r1 : ℕ, r0 ≤ 36000 → 0 ≤ interpolatedAzimuth r0 r1)
    ∧ (∀ (maxNumLasers rotPos li : ℕ) (interp : ℚ),
        0 ≤ interp → 0 ≤ slotAzimuth maxNumLasers rotPos interp li) := by
  refine ⟨?_, ?_, ?_, rfl, ?_, ?_⟩
  · intro P mk u az ch s
    have hf : (0 : ℚ) < EPSILON := by norm_num [EPSILON]
    by_cases hb : s.lastAzimuth > az
    · simp [processReturn, hb, hf, pushFrame]
    · simp [processReturn, hb, hf]
  · intro P mk u az d ch s hd
    have hf : ¬ ((d : ℚ) < EPSILON) := fun hlt => hd ((epsilon_lt_iff_zero d).mp hlt)
    simp [processReturn, hf]
  · intro P mk u az d ch s h0 haz
    have hb : ¬ (s.lastAzimuth > az) := by
      rw [h0]
      exact not_lt.mpr haz
    by_cases hf : (d : ℚ) < EPSILON
    · simp [processReturn, hb, hf]
    · simp [processReturn, hb, hf]
  · intro r0 r1 h
    have hr0 : (r0 : ℚ) ≤ 36000 := by exact_mod_cast h
    have hr1 : (0 : ℚ) ≤ (r1 : ℚ) := Nat.cast_nonneg r1
    unfold interpolatedAzimuth
    split_ifs with h1
    · apply div_nonneg _ (by norm_num)
      linarith
    · have : r0 ≤ r1 := Nat.not_lt.mp h1
      have hle : (r0 : ℚ) ≤ (r1 : ℚ) := by exact_mod_cast this
      apply div_nonneg _ (by norm_num)
      linarith
  · intro maxN rotPos li interp hinterp
    have hr : (0 : ℚ) ≤ (rotPos : ℚ) := Nat.cast_nonneg rotPos
    simp only [slotAzimuth]
    split_ifs <;> linarith

/-- Witness for C8 at concrete inputs. -/
theorem C8_lastAzimuth_invariant_witness :
    (processReturn idPoint 0 8 1 0 (@initState ℚ)).lastAzimuth = 8
    ∧ (processReturn idPoint 0 8 1 0 (@initState ℚ)).queue = (@initState ℚ).queue
    ∧ 0 ≤ interpolatedAzimuth 35900 100
    ∧ 0 ≤ slotAzimuth 16 100 7 20 :=
  ⟨C8_lastAzimuth_invariant.2.1 ℚ idPoint 0 8 1 0 initState (by decide),
   C8_lastAzimuth_invariant.2.2.1 ℚ idPoint 0 8 1 0 initState rfl (by norm_num),
   C8_lastAzimuth_invariant.2.2.2.2.1 35900 100 (by decide),
   C8_lastAzimuth_invariant.2.2.2.2.2 16 100 20 7 (by norm_num)⟩

/-- C4: the interpolated azimuth advance is halved wrapped difference of the
first two rotational positions (36000 added exactly when the difference is
negative), equals 100 on the wrap case 35900 to 100, and is added to the
block's rotational position only for laser slots at or beyond the model's
laser count. -/
theorem C4_interpolated_azimuth :
    (∀ r0 r1 : ℕ,
        interpolatedAzimuth r0 r1 =
          (if ((r1 : ℚ) - (r0 : ℚ)) < 0 then ((r1 : ℚ) - (r0 : ℚ)) + 36000
           else ((r1 : ℚ) - (r0 : ℚ))) / 2)
    ∧ interpolatedAzimuth 35900 100 = 100
    ∧ (∀ (maxNumLasers rotPos li : ℕ) (interp : ℚ), li < maxNumLasers →
        slotAzimuth maxNumLasers rotPos interp li =
          if (rotPos : ℚ) ≥ 36000 then (rotPos : ℚ) - 36000 else (rotPos : ℚ))
    ∧ (∀ (maxNumLasers rotPos li : ℕ) (interp : ℚ), maxNumLasers ≤ li →
        slotAzimuth maxNumLasers rotPos interp li =
          if (rotPos : ℚ) + interp ≥ 36000 then (rotPos : ℚ) + interp - 36000
          else (rotPos : ℚ) + interp) := by
  refine ⟨?_, by norm_num [interpolatedAzimuth], ?_, ?_⟩
  · intro r0 r1
    by_cases h : r1 < r0
    · have hc : ((r1 : ℚ) - (r0 : ℚ)) < 0 := by
        have : (r1 : ℚ) < (r0 : ℚ) := by exact_mod_cast h
        linarith
      simp only [interpolatedAzimuth, if_pos h, if_pos hc]
      ring
    · have hc : ¬ ((r1 : ℚ) - (r0 : ℚ)) < 0 := by
        have : (r0 : ℚ) ≤ (r1 : ℚ) := by exact_mod_cast Nat.not_lt.mp h
        linarith
      simp only [interpolatedAzimuth, if_neg h, if_neg hc]
  · intro maxN rotPos li interp h
    simp [slotAzimuth, Nat.not_le.mpr h]
  · intro maxN rotPos li interp h
    simp [slotAzimuth, h]

/-- Witness for C4 at slots 3 (below the laser count) and 20 (at or
beyond it). -/
theorem C4_interpolated_azimuth_witness :
    slotAzimuth 16 100 7 3 =
      (if ((100 : ℕ) : ℚ) ≥ 36000 then ((100 : ℕ) : ℚ) - 36000 else ((100 : ℕ) : ℚ))
    ∧ slotAzimuth 16 100 7 20 =
      (if ((100 : ℕ) : ℚ) + 7 ≥ 36000 then ((100 : ℕ) : ℚ) + 7 - 36000
       else ((100 : ℕ) : ℚ) + 7) :=
  ⟨C4_interpolated_azimuth.2.2.1 16 100 3 7 (by decide),
   C4_interpolated_azimuth.2.2.2 16 100 20 7 (by decide)⟩

/-- Helper: components of the homogeneous extension. -/
theorem homog_zero (p : ℝ × ℝ × ℝ) : homog p 0 = p.1 := rfl

/-- Helper: components of the homogeneous extension. -/
theorem homog_one (p : ℝ × ℝ × ℝ) : homog p 1 = p.2.1 := rfl

/-- Helper: components of the homogeneous extension. -/
theorem homog_two (p : ℝ × ℝ × ℝ) : homog p 2 = p.2.2 := rfl

/-- Helper: components of the homogeneous extension. -/
theorem homog_three (p : ℝ × ℝ × ℝ) : homog p 3 = 1 := rfl

/-- C2 evidence: the VLP-16 cos/sin tables are the pointwise cos/sin (in
radians) of the vertical-angle table and the angle tables have the model's
laser count as length, but the HDL-32E initializer leaves both derived
tables empty, so no channel below its 32-laser count has any cos/sin entry. -/
theorem C2_calibration_tables :
    (∀ c : ℕ, vlp16_lut_cos[c]?
        = vlp16_lut[c]?.map (fun a : ℚ => Real.cos ((a : ℝ) * Real.pi / 180)))
    ∧ (∀ c : ℕ, vlp16_lut_sin[c]?
        = vlp16_lut[c]?.map (fun a : ℚ => Real.sin ((a : ℝ) * Real.pi / 180)))
    ∧ vlp16_lut.length = 16 ∧ vlp16_MAX_NUM_LASERS = 16
    ∧ hdl32_lut.length = 32 ∧ hdl32_MAX_NUM_LASERS = 32
    ∧ hdl32_lut_cos = ([] : List ℝ) ∧ hdl32_lut_sin = ([] : List ℝ) := by
  refine ⟨?_, ?_, rfl, rfl, rfl, rfl, rfl, rfl⟩
  · intro c
    unfold vlp16_lut_cos
    exact List.getElem?_map _ _ _
  · intro c
    unfold vlp16_lut_sin
    exact List.getElem?_map _ _ _

/-- C3: the reconstructed point is the spec formula with
`range = rawDistance * 2`, the calibration entries at
`channel = slot mod laserCount`, and `azimuthRad = azimuth * pi / 18000`;
the configured 4x4 transform acts as the matrix-vector product
`M * [x, y, z, 1]` (rows 0..2); and an unfiltered return is appended to the
in-progress frame. -/
theorem C3_point_formula :
    (∀ (lutCos lutSin : List ℝ) (d ch : ℕ) (az : ℚ),
        rawPoint lutCos lutSin d ch az
          = specPoint ((d : ℝ) * 2) (lutCos.getD ch 0) (lutSin.getD ch 0)
              ((az : ℝ) * (Real.pi / 18000)))
    ∧ (∀ (m : Fin 4 → Fin 4 → ℝ) (p : ℝ × ℝ × ℝ),
        applyTransform m p = specTransform m p)
    ∧ (∀ (P : Type) (mk : ℕ → ℕ → ℚ → P) (maxNumLasers u : ℕ) (interp : ℚ)
        (firing : FiringData) (li : ℕ) (s : CaptureState P),
        processSlot mk maxNumLasers u interp firing li s
          = processReturn mk u
              (slotAzimuth maxNumLasers firing.rotationalPosition interp li)
              (firing.laserReturns.getD (li % maxNumLasers) defaultReturn).distance
              (li % maxNumLasers) s)
    ∧ (∀ (P : Type) (mk : ℕ → ℕ → ℚ → P) (u : ℕ) (az : ℚ) (d ch : ℕ)
        (s : CaptureState P),
        ¬ s.lastAzimuth > az → d ≠ 0 →
          (processReturn mk u az d ch s).cloud = s.cloud ++ [mk d ch az]) := by
  refine ⟨?_, ?_, fun _ _ _ _ _ _ _ _ => rfl, ?_⟩
  · intro lc ls d ch az
    simp [rawPoint, specPoint, M_PI_18000]
  · intro m p
    simp [applyTransform, specTransform, Fin.sum_univ_four,
      homog_zero, homog_one, homog_two, homog_three]
  · intro P mk u az d ch s hb hd
    have hf : ¬ ((d : ℚ) < EPSILON) := fun hlt => hd ((epsilon_lt_iff_zero d).mp hlt)
    simp [processReturn, hb, hf]

/-- Witness for C3 at a concrete non-boundary, unfiltered slot. -/
theorem C3_point_formula_witness :
    (processReturn idPoint 0 0 1 0 (@initState ℚ)).cloud
      = (@initState ℚ).cloud ++ [idPoint 1 0 0] :=
  C3_point_formula.2.2.2 ℚ idPoint 0 0 1 0 initState (by norm_num [initState]) (by decide)

/-- Helper: folding the decimal accumulator from an arbitrary start. -/
theorem foldl_digits_shift (l : List ℕ) :
    ∀ a : ℕ, l.foldl (fun x d => x * 10 + d) a = a * 10 ^ l.length + fromDigits l := by
  induction l with
  | nil => intro a; simp [fromDigits]
  | cons d t ih =>
      intro a
      have hd : fromDigits (d :: t) = d * 10 ^ t.length + fromDigits t := by
        have h0 : fromDigits (d :: t) = t.foldl (fun x d => x * 10 + d) d := by
          simp [fromDigits]
        rw [h0, ih d]
      simp only [List.foldl_cons, List.length_cons]
      rw [ih (a * 10 + d), hd]
      ring

/-- Helper: the decimal value of a concatenation. -/
theorem fromDigits_append (a b : List ℕ) :
    fromDigits (a ++ b) = fromDigits a * 10 ^ b.length + fromDigits b := by
  have h : fromDigits (a ++ b) = b.foldl (fun x d => x * 10 + d) (fromDigits a) := by
    simp [fromDigits, List.foldl_append]
  rw [h, foldl_digits_shift b (fromDigits a)]

/-- Helper: digit extraction at zero is the accumulator. -/
theorem toDigitsAux_zero (fuel : ℕ) (acc : List ℕ) : toDigitsAux fuel 0 acc = acc := by
  cases fuel <;> simp [toDigitsAux]

/-- Helper: digit extraction is correct given enough fuel. -/
theorem toDigitsAux_spec (fuel : ℕ) :
    ∀ n acc, n ≤ fuel →
      fromDigits (toDigitsAux fuel n acc) = n * 10 ^ acc.length + fromDigits acc := by
  induction fuel with
  | zero =>
      intro n acc h
      have hn : n = 0 := Nat.le_zero.mp h
      subst hn
      simp [toDigitsAux]
  | succ fuel ih =>
      intro n acc h
      by_cases hn : n = 0
      · subst hn; simp [toDigitsAux]
      · have hstep : toDigitsAux (fuel + 1) n acc
            = toDigitsAux fuel (n / 10) (n % 10 :: acc) := by
          simp [toDigitsAux, hn]
        have hfuel : n / 10 ≤ fuel := by
          have : n / 10 < n := Nat.div_lt_self (Nat.pos_of_ne_zero hn) (by norm_num)
          omega
        have hcons : fromDigits (n % 10 :: acc)
            = n % 10 * 10 ^ acc.length + fromDigits acc := by
          have h0 : fromDigits (n % 10 :: acc)
              = acc.foldl (fun x d => x * 10 + d) (n % 10) := by
            simp [fromDigits]
          rw [h0, foldl_digits_shift]
        rw [hstep, ih (n / 10) (n % 10 :: acc) hfuel, hcons, List.length_cons]
        have hK : n / 10 * 10 ^ (acc.length + 1)
              + (n % 10 * 10 ^ acc.length + fromDigits acc)
            = (10 * (n / 10) + n % 10) * 10 ^ acc.length + fromDigits acc := by
          ring
        rw [hK, Nat.div_add_mod]

/-- Helper: the accumulator is a suffix of the extracted digits. -/
theorem toDigitsAux_append (fuel : ℕ) :
    ∀ n acc, n ≤ fuel → toDigitsAux fuel n acc = toDigitsAux fuel n [] ++ acc := by
  induction fuel with
  | zero =>
      intro n acc h
      have hn : n = 0 := Nat.le_zero.mp h
      subst hn
      simp [toDigitsAux]
  | succ fuel ih =>
      intro n acc h
      by_cases hn : n = 0
      · subst hn; simp [toDigitsAux]
      · have hfuel : n / 10 ≤ fuel := by
          have : n / 10 < n := Nat.div_lt_self (Nat.pos_of_ne_zero hn) (by norm_num)
          omega
        simp only [toDigitsAux, if_neg hn]
        rw [ih (n / 10) (n % 10 :: acc) hfuel, ih (n / 10) [n % 10] hfuel]
        simp

/-- Helper: the fuel is irrelevant once it covers the input. -/
theorem toDigitsAux_fuel (fuel : ℕ) :
    ∀ g n acc, n ≤ fuel → n ≤ g → toDigitsAux fuel n acc = toDigitsAux g n acc := by
  induction fuel with
  | zero =>
      intro g n acc hf hg
      have hn : n = 0 := Nat.le_zero.mp hf
      subst hn
      rw [toDigitsAux_zero, toDigitsAux_zero]
  | succ fuel ih =>
      intro g n acc hf hg
      by_cases hn : n = 0
      · subst hn
        rw [toDigitsAux_zero, toDigitsAux_zero]
      · cases g with
        | zero => exact absurd (Nat.le_zero.mp hg) hn
        | succ g =>
            simp only [toDigitsAux, if_neg hn]
            have hlt : n / 10 < n := Nat.div_lt_self (Nat.pos_of_ne_zero hn) (by norm_num)
            exact ih g (n / 10) (n % 10 :: acc) (by omega) (by omega)

/-- Helper: peeling the last decimal digit. -/
theorem digitsOf_step (n : ℕ) (h : 10 ≤ n) :
    digitsOf n = digitsOf (n / 10) ++ [n % 10] := by
  have hn : n ≠ 0 := by omega
  have hq : n / 10 ≠ 0 := by omega
  obtain ⟨f, rfl⟩ : ∃ f, n = f + 1 := ⟨n - 1, by omega⟩
  have h1 : digitsOf (f + 1) = toDigitsAux f ((f + 1) / 10) [(f + 1) % 10] := by
    simp [digitsOf, toDigitsAux]
  rw [h1,
    toDigitsAux_fuel f ((f + 1) / 10) ((f + 1) / 10) [(f + 1) % 10] (by omega) le_rfl,
    toDigitsAux_append ((f + 1) / 10) ((f + 1) / 10) [(f + 1) % 10] le_rfl]
  congr 1
  simp [digitsOf, hq]

/-- Helper: the digit rendering round-trips through `fromDigits`. -/
theorem fromDigits_digitsOf (n : ℕ) : fromDigits (digitsOf n) = n := by
  by_cases hn : n = 0
  · subst hn; rfl
  · have h1 : digitsOf n = toDigitsAux n n [] := by simp [digitsOf, hn]
    rw [h1, toDigitsAux_spec n n [] le_rfl]
    simp [fromDigits]

/-- Helper: the decimal rendering of `n` in `[10^k, 10^(k+1))` has `k + 1`
digits. -/
theorem digitsOf_length (k : ℕ) :
    ∀ n, 10 ^ k ≤ n → n < 10 ^ (k + 1) → (digitsOf n).length = k + 1 := by
  induction k with
  | zero =>
      intro n h1 h2
      norm_num at h1 h2
      obtain ⟨f, rfl⟩ : ∃ f, n = f + 1 := ⟨n - 1, by omega⟩
      have hdiv : (f + 1) / 10 = 0 := Nat.div_eq_of_lt (by omega)
      have h3 : digitsOf (f + 1) = toDigitsAux f ((f + 1) / 10) [(f + 1) % 10] := by
        simp [digitsOf, toDigitsAux]
      rw [h3, hdiv, toDigitsAux_zero]
      rfl
  | succ k ih =>
      intro n h1 h2
      have h10 : 10 ≤ n := by
        have hp : (10 : ℕ) ^ 1 ≤ 10 ^ (k + 1) := Nat.pow_le_pow_right (by norm_num) (by omega)
        have := le_trans hp h1
        simpa using this
      rw [digitsOf_step n h10]
      have hq1 : 10 ^ k ≤ n / 10 := by
        rw [Nat.le_div_iff_mul_le (by norm_num : 0 < 10)]
        calc 10 ^ k * 10 = 10 ^ (k + 1) := (pow_succ 10 k).symm
          _ ≤ n := h1
      have hq2 : n / 10 < 10 ^ (k + 1) := by
        rw [Nat.div_lt_iff_lt_mul (by norm_num : 0 < 10)]
        calc n < 10 ^ (k + 1 + 1) := h2
          _ = 10 ^ (k + 1) * 10 := by ring
      rw [List.length_append, ih (n / 10) hq1 hq2]
      rfl

/-- C5 counterexample: the code's stringstream uses `std::left`, so the
microsecond field is padded on the right: seconds 10 and microseconds 42
produce 10420000, not the claimed zero-padded concatenation 10000042. -/
theorem C5_timestamp_counterexample :
    unixtimeOf 10 42 = 10420000 ∧ specUnixtime 10 42 = 10000042
    ∧ unixtimeOf 10 42 ≠ specUnixtime 10 42 := by
  refine ⟨by decide, by decide, by decide⟩

/-- C5 amended: the timestamp concatenates the decimal seconds with the
microseconds left-justified in a 6-character zero-filled field (padded on
the right, `std::left`); this coincides with `sec * 10^6 + usec` exactly
when the microseconds render as 6 digits, and for microseconds 42 it yields
`sec * 10^6 + 420000`. -/
theorem C5_timestamp_amended :
    (∀ sec usec : ℕ, 100000 ≤ usec → usec < 1000000 →
        unixtimeOf sec usec = sec * 1000000 + usec)
    ∧ (∀ sec : ℕ, unixtimeOf sec 42 = sec * 1000000 + 420000) := by
  constructor
  · intro sec usec h1 h2
    have hlen : (digitsOf usec).length = 6 := by
      refine digitsOf_length 5 usec ?_ ?_
      · calc (10 : ℕ) ^ 5 = 100000 := by norm_num
          _ ≤ usec := h1
      · calc usec < 1000000 := h2
          _ = 10 ^ (5 + 1) := by norm_num
    have hpad : padField (digitsOf usec) = digitsOf usec := by
      simp [padField, hlen]
    simp only [unixtimeOf, hpad]
    rw [fromDigits_append, hlen, fromDigits_digitsOf, fromDigits_digitsOf]
    norm_num
  · intro sec
    have h42 : padField (digitsOf 42) = [4, 2, 0, 0, 0, 0] := by decide
    simp only [unixtimeOf, h42]
    rw [fromDigits_append, fromDigits_digitsOf]
    norm_num [fromDigits]

/-- Witness for the amended C5 at a 6-digit microsecond value. -/
theorem C5_timestamp_amended_witness :
    unixtimeOf 7 123456 = 7 * 1000000 + 123456 :=
  C5_timestamp_amended.1 7 123456 (by norm_num) (by norm_num)

end velodyne
